import Mathlib

/-!
Shallow embedding of `resolver.go` from the kong flag-parsing library:
the `Resolver` capability, the `ResolverFunc` adapter, and the three
built-in resolvers (`DefaultsResolver`, `EnvarResolver`, `JSON`).

Go's `interface{}` result is modelled as `Option Value` (`none` = Go
`nil`, the "no value" result); Go's `error` as `Option String`
(`none` = Go `nil` error).  The process environment (read via
`os.Getenv`) is injected as a function `String → Option String`
(`none` = variable unset), with `Getenv` reproducing Go's behaviour of
returning the empty string for an unset variable.
-/

namespace Kong

/-- Tag metadata of a flag, as consumed by `resolver.go`: the `default`
and `env` struct tags. -/
structure Tag where
  Default : String
  Env : String
  deriving DecidableEq

/-- A flag descriptor, as consumed by `resolver.go`: its canonical name
and its tag metadata. -/
structure Flag where
  Name : String
  Tag : Tag
  deriving DecidableEq

/-- Opaque parse-position state (`*Context` in Go); `resolver.go` never
inspects it. -/
structure Context where
  id : Nat
  deriving DecidableEq

/-- Opaque path state (`*Path` in Go); `resolver.go` never inspects it. -/
structure Path where
  id : Nat
  deriving DecidableEq

/-- Opaque application schema (`*Application` in Go); the built-in
resolvers never inspect it. -/
structure Application where
  id : Nat
  deriving DecidableEq

/-- A decoded JSON value, as produced by the structured decoder used by
the `JSON` resolver.  Numbers keep their source lexeme. -/
inductive JSONValue where
  | null : JSONValue
  | bool (b : Bool) : JSONValue
  | num (lexeme : String) : JSONValue
  | str (s : String) : JSONValue
  | arr (elems : List JSONValue) : JSONValue
  | obj (fields : List (String × JSONValue)) : JSONValue

/-- A value produced by a resolver (the non-nil inhabitants of Go's
`interface{}` result): a plain string (defaults and environment
resolvers) or a decoded JSON value (JSON resolver). -/
inductive Value where
  | str (s : String) : Value
  | json (j : JSONValue) : Value

/-- The `(interface{}, error)` pair returned by `Resolve`. -/
abbrev ResolveResult := Option Value × Option String

/-- The `Resolver` interface: `Validate` and `Resolve`. -/
structure Resolver where
  Validate : Application → Option String
  Resolve : Context → Path → Flag → ResolveResult

/-- `ResolverFunc`: a plain resolution function. -/
def ResolverFunc := Context → Path → Flag → ResolveResult

/-- `func (r ResolverFunc) Resolve(...)` — delegates to the wrapped
function. -/
def ResolverFunc.Resolve (r : ResolverFunc) (context : Context) (parent : Path)
    (flag : Flag) : ResolveResult :=
  r context parent flag

/-- `func (r ResolverFunc) Validate(app *Application) error { return nil }` -/
def ResolverFunc.Validate (_ : ResolverFunc) (_ : Application) : Option String :=
  none

/-- A `ResolverFunc` satisfies the `Resolver` interface. -/
def ResolverFunc.toResolver (r : ResolverFunc) : Resolver :=
  { Validate := r.Validate, Resolve := r.Resolve }

/-- `DefaultsResolver` — resolves values from the `default` tag on a
flag. -/
def DefaultsResolver : Resolver :=
  ResolverFunc.toResolver (fun _context _parent flag =>
    if flag.Tag.Default = "" then (none, none)
    else (some (Value.str flag.Tag.Default), none))

/-- `os.Getenv`: the empty string when the variable is unset. -/
def Getenv (env : String → Option String) (name : String) : String :=
  (env name).getD ""

/-- `EnvarResolver` — resolves values from environment variables, with
the process environment injected as `env`. -/
def EnvarResolver (env : String → Option String) : Resolver :=
  ResolverFunc.toResolver (fun _context _parent flag =>
    if flag.Tag.Env = "" then (none, none)
    else
      let envar := Getenv env flag.Tag.Env
      if envar ≠ "" then (some (Value.str envar), none)
      else (none, none))

/-! ## JSON decoding

`JSON` delegates document decoding to `encoding/json` (the external
structured decoder); the decoder below is a faithful in-model stand-in
for decoding a byte stream into `map[string]interface{}`. -/

/-- JSON whitespace. -/
def isJsonWs (c : Char) : Bool :=
  c = ' ' || c = '\t' || c = '\n' || c = '\r'

/-- Drop leading JSON whitespace. -/
def skipWs : List Char → List Char
  | [] => []
  | c :: cs => if isJsonWs c then skipWs cs else c :: cs

/-- Consume an expected literal suffix (e.g. `ull` after `n`). -/
def dropLit : List Char → List Char → Option (List Char)
  | [], cs => some cs
  | l :: ls, c :: cs => if c = l then dropLit ls cs else none
  | _ :: _, [] => none

/-- Value of a hexadecimal digit. -/
def hexVal (c : Char) : Option Nat :=
  if '0' ≤ c ∧ c ≤ '9' then some (c.toNat - '0'.toNat)
  else if 'a' ≤ c ∧ c ≤ 'f' then some (c.toNat - 'a'.toNat + 10)
  else if 'A' ≤ c ∧ c ≤ 'F' then some (c.toNat - 'A'.toNat + 10)
  else none

/-- Decoded form of a single-character string escape. -/
def escChar (c : Char) : Option Char :=
  if c = '"' then some '"'
  else if c = '\\' then some '\\'
  else if c = '/' then some '/'
  else if c = 'n' then some '\n'
  else if c = 't' then some '\t'
  else if c = 'r' then some '\r'
  else if c = 'b' then some (Char.ofNat 8)
  else if c = 'f' then some (Char.ofNat 12)
  else none

/-- Parse the body of a JSON string, the opening quote already
consumed; returns the decoded string and the remaining input. -/
def parseStringBody : Nat → List Char → Except String (String × List Char)
  | 0, _ => Except.error "string literal too long"
  | Nat.succ fuel, cs =>
    match cs with
    | [] => Except.error "unterminated string literal"
    | '"' :: rest => Except.ok ("", rest)
    | '\\' :: esc =>
      match esc with
      | 'u' :: h1 :: h2 :: h3 :: h4 :: rest =>
        match hexVal h1, hexVal h2, hexVal h3, hexVal h4 with
        | some a, some b, some c, some d =>
          Except.map (fun p => (String.mk (Char.ofNat (((a * 16 + b) * 16 + c) * 16 + d) :: p.1.data), p.2))
            (parseStringBody fuel rest)
        | _, _, _, _ => Except.error "invalid unicode escape"
      | e :: rest =>
        match escChar e with
        | some c =>
          Except.map (fun p => (String.mk (c :: p.1.data), p.2)) (parseStringBody fuel rest)
        | none => Except.error "invalid escape character"
      | [] => Except.error "unterminated escape"
    | c :: rest =>
      Except.map (fun p => (String.mk (c :: p.1.data), p.2)) (parseStringBody fuel rest)

/-- Take a maximal run of decimal digits. -/
def takeDigits : List Char → List Char × List Char
  | [] => ([], [])
  | c :: cs =>
    if c.isDigit then
      let p := takeDigits cs
      (c :: p.1, p.2)
    else ([], c :: cs)

/-- Parse a JSON number, returning its lexeme and the remaining
input. -/
def parseNumber (cs : List Char) : Except String (String × List Char) :=
  let p0 : List Char × List Char :=
    match cs with
    | '-' :: r => (['-'], r)
    | _ => ([], cs)
  let p1 := takeDigits p0.2
  if p1.1.isEmpty then Except.error "invalid number literal"
  else
    let p2 : List Char × List Char :=
      match p1.2 with
      | '.' :: r =>
        let d := takeDigits r
        ('.' :: d.1, d.2)
      | _ => ([], p1.2)
    let p3 : List Char × List Char :=
      match p2.2 with
      | 'e' :: '-' :: r =>
        let d := takeDigits r
        ('e' :: '-' :: d.1, d.2)
      | 'e' :: '+' :: r =>
        let d := takeDigits r
        ('e' :: '+' :: d.1, d.2)
      | 'e' :: r =>
        let d := takeDigits r
        ('e' :: d.1, d.2)
      | 'E' :: '-' :: r =>
        let d := takeDigits r
        ('E' :: '-' :: d.1, d.2)
      | 'E' :: '+' :: r =>
        let d := takeDigits r
        ('E' :: '+' :: d.1, d.2)
      | 'E' :: r =>
        let d := takeDigits r
        ('E' :: d.1, d.2)
      | _ => ([], p2.2)
    Except.ok (String.mk (p0.1 ++ p1.1 ++ p2.1 ++ p3.1), p3.2)

/-- Insert a key into a decoded object, overwriting an existing binding
(Go map assignment: a duplicate key keeps the last value). -/
def mapInsert (m : List (String × JSONValue)) (k : String) (v : JSONValue) :
    List (String × JSONValue) :=
  match m with
  | [] => [(k, v)]
  | (k', v') :: rest =>
    if k' = k then (k, v) :: rest else (k', v') :: mapInsert rest k v

/-- Look a key up in a decoded object (Go map indexing with the
`, ok` form). -/
def mapLookup (m : List (String × JSONValue)) (k : String) : Option JSONValue :=
  match m with
  | [] => none
  | (k', v) :: rest => if k' = k then some v else mapLookup rest k

mutual

/-- Parse one JSON value. -/
def parseValue : Nat → List Char → Except String (JSONValue × List Char)
  | 0, _ => Except.error "input exhausted parser fuel"
  | Nat.succ fuel, cs =>
    match skipWs cs with
    | [] => Except.error "unexpected end of input"
    | 'n' :: cs' =>
      match dropLit ['u', 'l', 'l'] cs' with
      | some rest => Except.ok (JSONValue.null, rest)
      | none => Except.error "invalid literal"
    | 't' :: cs' =>
      match dropLit ['r', 'u', 'e'] cs' with
      | some rest => Except.ok (JSONValue.bool true, rest)
      | none => Except.error "invalid literal"
    | 'f' :: cs' =>
      match dropLit ['a', 'l', 's', 'e'] cs' with
      | some rest => Except.ok (JSONValue.bool false, rest)
      | none => Except.error "invalid literal"
    | '"' :: cs' =>
      Except.map (fun p => (JSONValue.str p.1, p.2)) (parseStringBody (Nat.succ fuel) cs')
    | '{' :: cs' => parseObjectFields fuel cs' []
    | '[' :: cs' => parseArrayElems fuel cs' []
    | c :: cs' =>
      if c = '-' || c.isDigit then
        Except.map (fun p => (JSONValue.num p.1, p.2)) (parseNumber (c :: cs'))
      else Except.error "invalid character looking for value"

/-- Parse the fields of a JSON object, the opening brace (or the comma
after the previous field) already consumed. -/
def parseObjectFields : Nat → List Char → List (String × JSONValue) →
    Except String (JSONValue × List Char)
  | 0, _, _ => Except.error "input exhausted parser fuel"
  | Nat.succ fuel, cs, acc =>
    match skipWs cs with
    | '}' :: rest => Except.ok (JSONValue.obj acc, rest)
    | '"' :: cs' =>
      match parseStringBody (Nat.succ fuel) cs' with
      | Except.error e => Except.error e
      | Except.ok (key, afterKey) =>
        match skipWs afterKey with
        | ':' :: afterColon =>
          match parseValue fuel afterColon with
          | Except.error e => Except.error e
          | Except.ok (v, afterVal) =>
            match skipWs afterVal with
            | ',' :: rest => parseObjectFields fuel rest (mapInsert acc key v)
            | '}' :: rest => Except.ok (JSONValue.obj (mapInsert acc key v), rest)
            | _ => Except.error "invalid character after object value"
        | _ => Except.error "invalid character after object key"
    | _ => Except.error "invalid character looking for object key"

/-- Parse the elements of a JSON array, the opening bracket (or the
comma after the previous element) already consumed. -/
def parseArrayElems : Nat → List Char → List JSONValue →
    Except String (JSONValue × List Char)
  | 0, _, _ => Except.error "input exhausted parser fuel"
  | Nat.succ fuel, cs, acc =>
    match skipWs cs with
    | ']' :: rest => Except.ok (JSONValue.arr acc.reverse, rest)
    | cs' =>
      match parseValue fuel cs' with
      | Except.error e => Except.error e
      | Except.ok (v, afterVal) =>
        match skipWs afterVal with
        | ',' :: rest => parseArrayElems fuel rest (v :: acc)
        | ']' :: rest => Except.ok (JSONValue.arr (acc.reverse ++ [v]), rest)
        | _ => Except.error "invalid character after array element"

end

/-- Modelled from the spec: the structured decoder (`encoding/json`,
an external collaborator, not part of this repository's source) used
by the `JSON` constructor — "decode it in full as a JSON object into a
mapping from string to untyped value. If decoding fails (malformed
JSON, wrong top-level shape), construction fails immediately with the
decoder's error." -/
def decodeObject (s : String) : Except String (List (String × JSONValue)) :=
  match parseValue (s.length * 4 + 16) s.data with
  | Except.error e => Except.error e
  | Except.ok (JSONValue.obj fields, _rest) => Except.ok fields
  | Except.ok _ => Except.error "cannot decode non-object into map"

/-- Modelled from Go standard library `strings.Replace(name, "-", "_", -1)`
as used in `resolver.go`: replace every hyphen with an underscore. -/
def replaceHyphens (s : String) : String :=
  String.mk (s.data.map (fun c => if c = '-' then '_' else c))

/-- The per-flag lookup closure captured by the `JSON` resolver. -/
def jsonResolve (values : List (String × JSONValue)) : ResolverFunc :=
  fun _context _parent flag =>
    let name := replaceHyphens flag.Name
    match mapLookup values name with
    | none => (none, none)
    | some raw => (some (Value.json raw), none)

/-- `JSON` — returns a Resolver that retrieves values from a JSON
source, or the decoder's error when decoding fails. -/
def JSON (input : String) : Except String Resolver :=
  match decodeObject input with
  | Except.error e => Except.error e
  | Except.ok values => Except.ok (jsonResolve values).toResolver

/-! ## Closed forms of the three built-in resolvers -/

/-- Closed form of `DefaultsResolver`'s `Resolve`. -/
theorem defaults_resolve_eq (context : Context) (parent : Path) (flag : Flag) :
    DefaultsResolver.Resolve context parent flag =
      if flag.Tag.Default = "" then (none, none)
      else (some (Value.str flag.Tag.Default), none) :=
  rfl

/-- Closed form of `EnvarResolver`'s `Resolve`. -/
theorem envar_resolve_eq (env : String → Option String) (context : Context)
    (parent : Path) (flag : Flag) :
    (EnvarResolver env).Resolve context parent flag =
      if flag.Tag.Env = "" then (none, none)
      else if Getenv env flag.Tag.Env ≠ "" then
        (some (Value.str (Getenv env flag.Tag.Env)), none)
      else (none, none) :=
  rfl

/-- Closed form of the `JSON` resolver's per-flag lookup. -/
theorem jsonResolve_eq (values : List (String × JSONValue)) (context : Context)
    (parent : Path) (flag : Flag) :
    jsonResolve values context parent flag =
      match mapLookup values (replaceHyphens flag.Name) with
      | none => (none, none)
      | some raw => (some (Value.json raw), none) :=
  rfl

/-- The lookup key never contains a hyphen. -/
theorem replaceHyphens_no_hyphen (s : String) : '-' ∉ (replaceHyphens s).data := by
  intro hm
  rw [replaceHyphens] at hm
  rw [show (String.mk (s.data.map fun c => if c = '-' then '_' else c)).data =
      s.data.map (fun c => if c = '-' then '_' else c) from rfl] at hm
  rw [List.mem_map] at hm
  obtain ⟨c, _, hc⟩ := hm
  by_cases h : c = '-'
  · rw [if_pos h] at hc
    exact absurd hc (by decide)
  · rw [if_neg h] at hc
    exact h hc

/-! ## Claim theorems -/

/-- C1: for every flag and every context/parent-path arguments, if
`flag.Tag.Default` is empty then `DefaultsResolver`'s `Resolve` returns
no value and no error; if it is a non-empty string `D`, `Resolve`
returns exactly `D` with no error, independent of the context and path
arguments. -/
theorem defaults_resolver_spec (context : Context) (parent : Path) (flag : Flag) :
    (flag.Tag.Default = "" →
      DefaultsResolver.Resolve context parent flag = (none, none)) ∧
    (flag.Tag.Default ≠ "" →
      DefaultsResolver.Resolve context parent flag =
        (some (Value.str flag.Tag.Default), none)) := by
  rw [defaults_resolve_eq]
  constructor
  · intro h
    rw [if_pos h]
  · intro h
    rw [if_neg h]

/-- C1 witness: evaluated on a flag with default `"5"` and on a flag
with no default. -/
theorem defaults_resolver_spec_witness :
    DefaultsResolver.Resolve ⟨0⟩ ⟨0⟩ ⟨"retries", ⟨"5", ""⟩⟩ =
      (some (Value.str "5"), none) ∧
    DefaultsResolver.Resolve ⟨1⟩ ⟨2⟩ ⟨"quiet", ⟨"", ""⟩⟩ = (none, none) :=
  ⟨(defaults_resolver_spec ⟨0⟩ ⟨0⟩ ⟨"retries", ⟨"5", ""⟩⟩).2 (by decide),
   (defaults_resolver_spec ⟨1⟩ ⟨2⟩ ⟨"quiet", ⟨"", ""⟩⟩).1 rfl⟩

/-- C2: `EnvarResolver`'s `Resolve` returns no value when
`flag.Tag.Env` is empty; when `flag.Tag.Env` names a variable set to a
non-empty string `V` it returns `V`; when that variable is unset or
set to the empty string it returns no value — an explicitly empty
variable is treated identically to an absent one. -/
theorem envar_resolver_spec (env : String → Option String) (context : Context)
    (parent : Path) (flag : Flag) :
    (flag.Tag.Env = "" →
      (EnvarResolver env).Resolve context parent flag = (none, none)) ∧
    (∀ V, flag.Tag.Env ≠ "" → env flag.Tag.Env = some V → V ≠ "" →
      (EnvarResolver env).Resolve context parent flag =
        (some (Value.str V), none)) ∧
    (env flag.Tag.Env = none ∨ env flag.Tag.Env = some "" →
      (EnvarResolver env).Resolve context parent flag = (none, none)) := by
  rw [envar_resolve_eq]
  refine ⟨fun h => if_pos h, ?_, ?_⟩
  · intro V h hv hV
    rw [if_neg h]
    rw [show Getenv env flag.Tag.Env = V from by rw [Getenv, hv]; rfl]
    rw [if_pos hV]
  · intro h
    by_cases he : flag.Tag.Env = ""
    · rw [if_pos he]
    · rw [if_neg he]
      have hg : Getenv env flag.Tag.Env = "" := by
        cases h with
        | inl h => rw [Getenv, h]; rfl
        | inr h => rw [Getenv, h]; rfl
      rw [if_neg (by rw [hg]; exact fun h => h rfl)]

/-- C2 witness: evaluated with `FOO=bar`, with an empty env binding,
with `FOO` unset, and with `FOO` set to the empty string. -/
theorem envar_resolver_spec_witness :
    (EnvarResolver (fun n => if n = "FOO" then some "bar" else none)).Resolve
        ⟨0⟩ ⟨0⟩ ⟨"foo", ⟨"", "FOO"⟩⟩ = (some (Value.str "bar"), none) ∧
    (EnvarResolver (fun n => if n = "FOO" then some "bar" else none)).Resolve
        ⟨0⟩ ⟨0⟩ ⟨"foo", ⟨"", ""⟩⟩ = (none, none) ∧
    (EnvarResolver (fun _ => none)).Resolve
        ⟨0⟩ ⟨0⟩ ⟨"foo", ⟨"", "FOO"⟩⟩ = (none, none) ∧
    (EnvarResolver (fun n => if n = "FOO" then some "" else none)).Resolve
        ⟨0⟩ ⟨0⟩ ⟨"foo", ⟨"", "FOO"⟩⟩ = (none, none) :=
  ⟨(envar_resolver_spec (fun n => if n = "FOO" then some "bar" else none)
      ⟨0⟩ ⟨0⟩ ⟨"foo", ⟨"", "FOO"⟩⟩).2.1 "bar" (by decide) (by decide) (by decide),
   (envar_resolver_spec (fun n => if n = "FOO" then some "bar" else none)
      ⟨0⟩ ⟨0⟩ ⟨"foo", ⟨"", ""⟩⟩).1 rfl,
   (envar_resolver_spec (fun _ => none)
      ⟨0⟩ ⟨0⟩ ⟨"foo", ⟨"", "FOO"⟩⟩).2.2 (Or.inl rfl),
   (envar_resolver_spec (fun n => if n = "FOO" then some "" else none)
      ⟨0⟩ ⟨0⟩ ⟨"foo", ⟨"", "FOO"⟩⟩).2.2 (Or.inr (by decide))⟩

/-- C3: the JSON resolver's per-flag lookup normalizes the flag name by
replacing every hyphen with an underscore and looks that key up in the
decoded document, returning the raw decoded value as-is when present
and no value when absent; concretely, the resolver constructed from
`{"max_retries": 3, "name": "x"}` resolves `max-retries` to `3` and
`missing-key` to no value. -/
theorem json_resolver_lookup_spec (values : List (String × JSONValue))
    (context : Context) (parent : Path) (flag : Flag) :
    (∀ raw, mapLookup values (replaceHyphens flag.Name) = some raw →
      jsonResolve values context parent flag = (some (Value.json raw), none)) ∧
    (mapLookup values (replaceHyphens flag.Name) = none →
      jsonResolve values context parent flag = (none, none)) ∧
    (∀ r, JSON "\x7b\"max_retries\": 3, \"name\": \"x\"\x7d" = Except.ok r →
      r.Resolve context parent ⟨"max-retries", ⟨"", ""⟩⟩ =
        (some (Value.json (JSONValue.num "3")), none) ∧
      r.Resolve context parent ⟨"missing-key", ⟨"", ""⟩⟩ = (none, none)) := by
  refine ⟨?_, ?_, ?_⟩
  · intro raw h
    rw [jsonResolve_eq, h]
  · intro h
    rw [jsonResolve_eq, h]
  · intro r h
    rw [show JSON "\x7b\"max_retries\": 3, \"name\": \"x\"\x7d" =
        Except.ok (jsonResolve
          [("max_retries", JSONValue.num "3"), ("name", JSONValue.str "x")]).toResolver
      from rfl] at h
    injection h with h
    subst h
    exact ⟨rfl, rfl⟩

/-- C3 witness: evaluated on the decoded document and on the
concretely constructed resolver. -/
theorem json_resolver_lookup_spec_witness :
    jsonResolve [("max_retries", JSONValue.num "3")] ⟨0⟩ ⟨0⟩
        ⟨"max-retries", ⟨"", ""⟩⟩ = (some (Value.json (JSONValue.num "3")), none) ∧
    jsonResolve [("max_retries", JSONValue.num "3")] ⟨0⟩ ⟨0⟩
        ⟨"missing-key", ⟨"", ""⟩⟩ = (none, none) ∧
    ((jsonResolve [("max_retries", JSONValue.num "3"),
        ("name", JSONValue.str "x")]).toResolver.Resolve ⟨0⟩ ⟨0⟩
        ⟨"max-retries", ⟨"", ""⟩⟩ = (some (Value.json (JSONValue.num "3")), none) ∧
      (jsonResolve [("max_retries", JSONValue.num "3"),
        ("name", JSONValue.str "x")]).toResolver.Resolve ⟨0⟩ ⟨0⟩
        ⟨"missing-key", ⟨"", ""⟩⟩ = (none, none)) :=
  ⟨(json_resolver_lookup_spec [("max_retries", JSONValue.num "3")] ⟨0⟩ ⟨0⟩
      ⟨"max-retries", ⟨"", ""⟩⟩).1 (JSONValue.num "3") rfl,
   (json_resolver_lookup_spec [("max_retries", JSONValue.num "3")] ⟨0⟩ ⟨0⟩
      ⟨"missing-key", ⟨"", ""⟩⟩).2.1 rfl,
   (json_resolver_lookup_spec [] ⟨0⟩ ⟨0⟩ ⟨"", ⟨"", ""⟩⟩).2.2
     (jsonResolve [("max_retries", JSONValue.num "3"),
        ("name", JSONValue.str "x")]).toResolver rfl⟩

/-- C4: a JSON resolver built from `{"flag_a": null}` resolves `flag-a`
to an explicit null value, distinguishable from the no-value result
obtained by resolving the absent `flag-b`. -/
theorem json_null_distinct_spec (context : Context) (parent : Path) :
    ∀ r, JSON "\x7b\"flag_a\": null\x7d" = Except.ok r →
      r.Resolve context parent ⟨"flag-a", ⟨"", ""⟩⟩ =
        (some (Value.json JSONValue.null), none) ∧
      r.Resolve context parent ⟨"flag-b", ⟨"", ""⟩⟩ = (none, none) ∧
      (some (Value.json JSONValue.null) : Option Value) ≠ none := by
  intro r h
  rw [show JSON "\x7b\"flag_a\": null\x7d" =
      Except.ok (jsonResolve [("flag_a", JSONValue.null)]).toResolver from rfl] at h
  injection h with h
  subst h
  exact ⟨rfl, rfl, fun h => Option.noConfusion h⟩

/-- C4 witness: evaluated on the concretely constructed resolver. -/
theorem json_null_distinct_spec_witness :
    (jsonResolve [("flag_a", JSONValue.null)]).toResolver.Resolve ⟨0⟩ ⟨0⟩
        ⟨"flag-a", ⟨"", ""⟩⟩ = (some (Value.json JSONValue.null), none) ∧
    (jsonResolve [("flag_a", JSONValue.null)]).toResolver.Resolve ⟨0⟩ ⟨0⟩
        ⟨"flag-b", ⟨"", ""⟩⟩ = (none, none) ∧
    (some (Value.json JSONValue.null) : Option Value) ≠ none :=
  json_null_distinct_spec ⟨0⟩ ⟨0⟩
    (jsonResolve [("flag_a", JSONValue.null)]).toResolver rfl

/-- C5: when decoding fails the `JSON` constructor returns the
decoder's error and no resolver; when decoding succeeds it returns a
resolver and no error; concretely, the input `not json` yields an
error. -/
theorem json_construction_spec :
    (∀ s e, decodeObject s = Except.error e → JSON s = Except.error e) ∧
    (∀ s values, decodeObject s = Except.ok values →
      JSON s = Except.ok (jsonResolve values).toResolver) ∧
    (∃ e, JSON "not json" = Except.error e) := by
  refine ⟨?_, ?_, ⟨"invalid literal", rfl⟩⟩
  · intro s e h
    rw [JSON, h]
  · intro s values h
    rw [JSON, h]

/-- C5 witness: evaluated on `not json` and on the empty object. -/
theorem json_construction_spec_witness :
    JSON "not json" = Except.error "invalid literal" ∧
    JSON "\x7b\x7d" = Except.ok (jsonResolve []).toResolver :=
  ⟨json_construction_spec.1 "not json" "invalid literal" rfl,
   json_construction_spec.2.1 "\x7b\x7d" [] rfl⟩

/-- C6: the `Resolve` operation of each of the three built-in
resolvers returns a nil error for every argument triple; absence of a
value is signaled by a nil result, never by an error. -/
theorem resolve_never_errors (env : String → Option String)
    (values : List (String × JSONValue)) (context : Context) (parent : Path)
    (flag : Flag) :
    (DefaultsResolver.Resolve context parent flag).2 = none ∧
    ((EnvarResolver env).Resolve context parent flag).2 = none ∧
    (jsonResolve values context parent flag).2 = none ∧
    (∀ s r, JSON s = Except.ok r → (r.Resolve context parent flag).2 = none) := by
  refine ⟨?_, ?_, ?_, ?_⟩
  · rw [defaults_resolve_eq]
    split <;> rfl
  · rw [envar_resolve_eq]
    split
    · rfl
    · split <;> rfl
  · rw [jsonResolve_eq]
    split <;> rfl
  · intro s r h
    rw [JSON] at h
    cases hd : decodeObject s with
    | error e =>
      rw [hd] at h
      exact Except.noConfusion h
    | ok values' =>
      rw [hd] at h
      injection h with h
      subst h
      show (jsonResolve values' context parent flag).2 = none
      rw [jsonResolve_eq]
      split <;> rfl

/-- C6 witness: evaluated on the resolver constructed from
`{"flag_a": null}`. -/
theorem resolve_never_errors_witness :
    ((jsonResolve [("flag_a", JSONValue.null)]).toResolver.Resolve ⟨0⟩ ⟨0⟩
      ⟨"flag-a", ⟨"", ""⟩⟩).2 = none :=
  (resolve_never_errors (fun _ => none) [] ⟨0⟩ ⟨0⟩ ⟨"flag-a", ⟨"", ""⟩⟩).2.2.2
    "\x7b\"flag_a\": null\x7d" (jsonResolve [("flag_a", JSONValue.null)]).toResolver rfl

/-- C7: each built-in resolver's `Resolve` is deterministic and
side-effect-free in the embedding — two calls with identical
arguments and identical captured state yield identical results. -/
theorem resolve_idempotent (env : String → Option String)
    (values : List (String × JSONValue)) (context : Context) (parent : Path)
    (flag : Flag) :
    DefaultsResolver.Resolve context parent flag =
      DefaultsResolver.Resolve context parent flag ∧
    (EnvarResolver env).Resolve context parent flag =
      (EnvarResolver env).Resolve context parent flag ∧
    (jsonResolve values).toResolver.Resolve context parent flag =
      (jsonResolve values).toResolver.Resolve context parent flag :=
  ⟨rfl, rfl, rfl⟩

/-- C8: the `ResolverFunc` adapter satisfies the `Resolver` capability:
`Validate` always returns nil and `Resolve` returns exactly what the
wrapped function returns. -/
theorem resolver_func_adapter_spec (f : ResolverFunc) (app : Application)
    (context : Context) (parent : Path) (flag : Flag) :
    f.toResolver.Validate app = none ∧
    f.toResolver.Resolve context parent flag = f context parent flag :=
  ⟨rfl, rfl⟩

/-- C9: the JSON resolver's lookup key contains no hyphens, so a
document key containing a hyphen can never be matched by any flag;
concretely, a flag named `max-retries` misses the document key
`max-retries` and hits `max_retries`. -/
theorem json_lookup_key_no_hyphen_spec (context : Context) (parent : Path)
    (flag : Flag) (k : String) :
    '-' ∉ (replaceHyphens flag.Name).data ∧
    ('-' ∈ k.data → replaceHyphens flag.Name ≠ k) ∧
    jsonResolve [("max-retries", JSONValue.str "v")] context parent
      ⟨"max-retries", ⟨"", ""⟩⟩ = (none, none) ∧
    jsonResolve [("max_retries", JSONValue.str "v")] context parent
      ⟨"max-retries", ⟨"", ""⟩⟩ = (some (Value.json (JSONValue.str "v")), none) := by
  refine ⟨replaceHyphens_no_hyphen flag.Name, ?_, rfl, rfl⟩
  intro hk heq
  apply replaceHyphens_no_hyphen flag.Name
  rw [heq]
  exact hk

/-- C9 witness: evaluated on the flag name `max-retries` and the
hyphenated document key `max-retries`. -/
theorem json_lookup_key_no_hyphen_spec_witness :
    replaceHyphens "max-retries" ≠ "max-retries" ∧
    jsonResolve [("max-retries", JSONValue.str "v")] ⟨0⟩ ⟨0⟩
      ⟨"max-retries", ⟨"", ""⟩⟩ = (none, none) :=
  ⟨(json_lookup_key_no_hyphen_spec ⟨0⟩ ⟨0⟩ ⟨"max-retries", ⟨"", ""⟩⟩
      "max-retries").2.1 (by decide),
   (json_lookup_key_no_hyphen_spec ⟨0⟩ ⟨0⟩ ⟨"max-retries", ⟨"", ""⟩⟩
      "max-retries").2.2.1⟩

/-- C10: each built-in resolver's result depends only on a restricted
part of its inputs — `flag.Tag.Default` for the defaults resolver,
`flag.Tag.Env` and the environment for the environment resolver, and
`flag.Name` and the decoded document for the JSON resolver; two calls
agreeing on those but differing in context, path, or other flag
fields give equal results. -/
theorem resolve_noninterference (env env' : String → Option String)
    (values : List (String × JSONValue)) (c c' : Context) (p p' : Path)
    (flag flag' : Flag) :
    (flag.Tag.Default = flag'.Tag.Default →
      DefaultsResolver.Resolve c p flag = DefaultsResolver.Resolve c' p' flag') ∧
    (flag.Tag.Env = flag'.Tag.Env → env flag.Tag.Env = env' flag'.Tag.Env →
      (EnvarResolver env).Resolve c p flag =
        (EnvarResolver env').Resolve c' p' flag') ∧
    (flag.Name = flag'.Name →
      jsonResolve values c p flag = jsonResolve values c' p' flag') := by
  refine ⟨?_, ?_, ?_⟩
  · intro h
    rw [defaults_resolve_eq, defaults_resolve_eq, h]
  · intro h hv
    rw [h] at hv
    rw [envar_resolve_eq, envar_resolve_eq, h,
      show Getenv env flag'.Tag.Env = Getenv env' flag'.Tag.Env from by
        simp only [Getenv, hv]]
  · intro h
    rw [jsonResolve_eq, jsonResolve_eq, h]

/-- C10 witness: evaluated at calls differing in context, path, the
other flag fields, and irrelevant parts of the environment. -/
theorem resolve_noninterference_witness :
    DefaultsResolver.Resolve ⟨0⟩ ⟨0⟩ ⟨"a", ⟨"5", "X"⟩⟩ =
      DefaultsResolver.Resolve ⟨1⟩ ⟨2⟩ ⟨"b", ⟨"5", "Y"⟩⟩ ∧
    (EnvarResolver (fun _ => some "v")).Resolve ⟨0⟩ ⟨0⟩ ⟨"a", ⟨"d1", "E"⟩⟩ =
      (EnvarResolver (fun n => if n = "E" then some "v" else none)).Resolve
        ⟨1⟩ ⟨2⟩ ⟨"b", ⟨"d2", "E"⟩⟩ ∧
    jsonResolve [("k", JSONValue.null)] ⟨0⟩ ⟨0⟩ ⟨"k", ⟨"d1", "X"⟩⟩ =
      jsonResolve [("k", JSONValue.null)] ⟨1⟩ ⟨2⟩ ⟨"k", ⟨"d2", "Y"⟩⟩ :=
  ⟨(resolve_noninterference (fun _ => none) (fun _ => none) [] ⟨0⟩ ⟨1⟩ ⟨0⟩ ⟨2⟩
      ⟨"a", ⟨"5", "X"⟩⟩ ⟨"b", ⟨"5", "Y"⟩⟩).1 rfl,
   (resolve_noninterference (fun _ => some "v")
      (fun n => if n = "E" then some "v" else none) [] ⟨0⟩ ⟨1⟩ ⟨0⟩ ⟨2⟩
      ⟨"a", ⟨"d1", "E"⟩⟩ ⟨"b", ⟨"d2", "E"⟩⟩).2.1 rfl (by decide),
   (resolve_noninterference (fun _ => none) (fun _ => none)
      [("k", JSONValue.null)] ⟨0⟩ ⟨1⟩ ⟨0⟩ ⟨2⟩
      ⟨"k", ⟨"d1", "X"⟩⟩ ⟨"k", ⟨"d2", "Y"⟩⟩).2.2 rfl⟩

end Kong
